import Mathlib

/-!
# Automata dashboard — verification of the task-state synchronization and
# pending-change reconciliation layer

Shallow embedding of the client-side core of the `Automata` dashboard:

* the Pending Change Buffer of the tool-management view
  (`src/dashboard/src/views/ToolManagementView.vue`, and its newer copy):
  `loadTools`, `enableTool`, `disableTool`, `saveAndReload`;
* the Task Monitor (`TaskDetailView.vue`, the `TasksView` embedded in
  `MainLayout.vue`): `loadTask`, the 3-second poll tick, `loadTasks`,
  `filteredTasks`;
* the shared error-message extraction helper
  (`src/dashboard/src/api/utils.ts`, `getErrorMessage`).

Network effects are made explicit: each operation that performs a `fetch`
is modelled as a pure state transformer parametrised by the outcome of
that fetch (transport failure, or a decoded response), and where a claim
needs it the operation also reports the request(s) it issued.
-/

namespace Automata

/-- `ToolStatus` record of `ToolManagementView.vue`. -/
structure ToolStatus where
  name : String
  description : String
  enabled : Bool
  active : Bool
  category : String
  version : Option String
deriving DecidableEq, Repr

/-- Local state of the tool-management view: the displayed tool list and
the pending-change buffer (`tools`, `pendingChanges` refs). The buffer
holds the literal tag strings `"enable:<name>"` / `"disable:<name>"`
exactly as the source pushes them. -/
structure ToolMgmtState where
  tools : List ToolStatus
  pendingChanges : List String
deriving DecidableEq, Repr

/-- The tag string pushed by `enableTool`. -/
def tagE (n : String) : String := "enable:" ++ n

/-- The tag string pushed by `disableTool`. -/
def tagD (n : String) : String := "disable:" ++ n

/-- `tools.value.find(t => t.name === toolName)` followed by in-place
mutation of `enabled`/`active`: updates the first tool with the given
name, leaves the rest alone. -/
def setToolDisplay (ts : List ToolStatus) (n : String) (en ac : Bool) :
    List ToolStatus :=
  match ts with
  | [] => []
  | t :: rest =>
      if t.name == n then { t with enabled := en, active := ac } :: rest
      else t :: setToolDisplay rest n en ac

/-- `enableTool(toolName)`: push `enable:<name>` unless already queued,
remove a queued `disable:<name>` (first occurrence, as
`indexOf`/`splice(i,1)` does), and optimistically flip the displayed
tool to `enabled=true, active=true`. -/
def enableTool (st : ToolMgmtState) (toolName : String) : ToolMgmtState :=
  let pc := st.pendingChanges
  let pc := if pc.contains (tagE toolName) then pc else pc ++ [tagE toolName]
  let pc := pc.erase (tagD toolName)
  { tools := setToolDisplay st.tools toolName true true, pendingChanges := pc }

/-- `disableTool(toolName)`: push `disable:<name>` unless already queued,
remove a queued `enable:<name>`, and optimistically flip the displayed
tool to `enabled=false, active=false`. -/
def disableTool (st : ToolMgmtState) (toolName : String) : ToolMgmtState :=
  let pc := st.pendingChanges
  let pc := if pc.contains (tagD toolName) then pc else pc ++ [tagD toolName]
  let pc := pc.erase (tagE toolName)
  { tools := setToolDisplay st.tools toolName false false, pendingChanges := pc }

/-- Outcome of the `fetch('/api/tools')` performed by `loadTools`:
either the fetch (or the subsequent `.json()`) threw, or a response
arrived with an `ok` flag and — when `ok` — a decoded body whose
`tools` field may be absent (`toolsData.tools || []`). -/
inductive ToolsFetchOutcome where
  | failure : ToolsFetchOutcome
  | response (ok : Bool) (tools : Option (List ToolStatus)) : ToolsFetchOutcome
deriving DecidableEq, Repr

/-- `loadTools()`: on a thrown error nothing is mutated (the `catch`
only alerts); on a response, the tool list is replaced only when
`toolsResponse.ok`, and `pendingChanges` is cleared on every non-throw
path (the clear sits after the `if` inside the `try`). -/
def loadTools (st : ToolMgmtState) (o : ToolsFetchOutcome) : ToolMgmtState :=
  match o with
  | .failure => st
  | .response ok tools? =>
      let st := if ok then { st with tools := tools?.getD [] } else st
      { st with pendingChanges := [] }

/-- Error body decoded from a failed HTTP response, as consumed by
`getErrorMessage` in `src/dashboard/src/api/utils.ts`: either the body
is a bare string, or an object carrying optional `detail` and `error`
fields. -/
inductive ErrorData where
  | str (s : String) : ErrorData
  | obj (detail : Option String) (error : Option String) : ErrorData
deriving DecidableEq, Repr

/-- JavaScript truthiness of an optional string field
(`if (errorData.detail)`): present and non-empty. -/
def truthyStr : Option String → Bool
  | none => false
  | some s => !s.isEmpty

/-- `getErrorMessage` from `src/dashboard/src/api/utils.ts`: a string
body is returned as-is; otherwise the `detail` key is preferred, then
the `error` key, then the default message. -/
def getErrorMessage (e : ErrorData) : String :=
  match e with
  | .str s => s
  | .obj detail err =>
      if truthyStr detail then detail.getD ""
      else if truthyStr err then err.getD ""
      else "未知错误"

/-- Error branch of `saveAndReload` in
`src/dashboard/src/views/ToolManagementView.vue` (the older copy):
``alert(`保存失败: ${error.error}`)`` — only the `error` key is
interpolated; an absent key renders as `undefined`. -/
def saveAndReloadAlertVue (e : ErrorData) : String :=
  match e with
  | .str _ => "保存失败: undefined"
  | .obj _ err => "保存失败: " ++ (match err with | some s => s | none => "undefined")

/-- Error branch of `saveAndReload` in the newer copy of the view
(`src/unnamed/part_002`): ``alert(`保存失败: ${getErrorMessage(error)}`)``. -/
def saveAndReloadAlertNew (e : ErrorData) : String :=
  "保存失败: " ++ getErrorMessage e

/-- Outcome of the `fetch('/api/tools/save-and-reload', …)` performed by
`saveAndReload`: transport failure (or an unparseable error body), or a
response with an `ok` flag; a non-`ok` response carries the decoded
error body. -/
inductive FlushOutcome where
  | failure : FlushOutcome
  | success : FlushOutcome
  | httpError (body : ErrorData) : FlushOutcome
deriving DecidableEq, Repr

/-- A request the tool-management view may issue. -/
inductive ToolRequest where
  | flush (changes : List String) : ToolRequest
  | getTools : ToolRequest
deriving DecidableEq, Repr

/-- `saveAndReload()`: empty buffer → alert only, no request. Otherwise
the whole buffer is sent as `{changes: pendingChanges}`; on a 2xx
response the buffer is cleared and `loadTools` runs (its fetch outcome
is the second parameter); on a non-2xx response or a thrown error the
state is left untouched. Returns the new state together with the
requests issued, in order. -/
def saveAndReload (st : ToolMgmtState) (fo : FlushOutcome)
    (ro : ToolsFetchOutcome) : ToolMgmtState × List ToolRequest :=
  if st.pendingChanges.isEmpty then (st, [])
  else
    match fo with
    | .failure => (st, [.flush st.pendingChanges])
    | .httpError _ => (st, [.flush st.pendingChanges])
    | .success =>
        (loadTools { st with pendingChanges := [] } ro,
         [.flush st.pendingChanges, .getTools])

/-- `ToolCall` record of `TaskDetailView.vue`. Opaque payloads
(`arguments`, `result`) are kept as strings. -/
structure ToolCall where
  call_id : String
  tool_name : String
  arguments : String
  result : Option String
  error : Option String
  started_at : Option String
  completed_at : Option String
  duration_ms : Option Int
deriving DecidableEq, Repr

/-- `TaskStep` record of `TaskDetailView.vue`. -/
structure TaskStep where
  step_id : String
  step_number : Int
  step_type : String
  description : Option String
  tool_calls : List ToolCall
  llm_input : Option String
  llm_output : Option String
  intermediate_result : Option String
  started_at : Option String
  completed_at : Option String
  duration_ms : Option Int
  status : String
deriving DecidableEq, Repr

/-- The parts of a task's opaque `result` payload that the views
inspect: the embedded `steps` array (absent ↦ `none`; present, possibly
empty, ↦ `some`) and the `execution_summary` presence flag used by the
list view. -/
structure TaskResult where
  steps : Option (List TaskStep)
  execution_summary : Option String
deriving DecidableEq, Repr

/-- `Task` record shared by `TaskDetailView.vue` and the `TasksView` of
`MainLayout.vue`. -/
structure Task where
  task_id : String
  session_id : String
  tool_name : String
  task_type : String
  status : String
  priority : Int
  description : Option String
  parameters : Option String
  result : Option TaskResult
  error_message : Option String
  created_at : String
  updated_at : String
  completed_at : Option String
deriving DecidableEq, Repr

/-- The display state of one detail-view component instance: the `task`
and `steps` refs of `TaskDetailView.vue`. -/
structure DetailState where
  task : Option Task
  steps : List TaskStep
deriving DecidableEq, Repr

/-- Decoded body of `fetch('/api/tasks/' + id)`: transport/JSON failure,
or an envelope with a `status` field and an optional `task` field. -/
inductive DetailResponse where
  | transportError : DetailResponse
  | envelope (status : String) (task : Option Task) : DetailResponse
deriving DecidableEq, Repr

/-- The state update performed by `loadTask` when its fetch resolves:
when the envelope says `success`, `task.value = data.task`; then
`steps.value` is replaced only when `task.value?.result?.steps` is
present (an absent field leaves the previously displayed steps). A
thrown error or a non-`success` envelope changes nothing. -/
def loadTaskApply (st : DetailState) (r : DetailResponse) : DetailState :=
  match r with
  | .transportError => st
  | .envelope status task? =>
      if status == "success" then
        let st := { st with task := task? }
        match task?.bind (fun t => t.result.bind (fun res => res.steps)) with
        | some ss => { st with steps := ss }
        | none => st
      else st

/-- One mounted (or torn-down) instance of `TaskDetailView.vue`: its
route parameter (`taskId`) and its own `task`/`steps` refs — each
instance created by the router owns fresh refs. -/
structure DetailInstance where
  routeTaskId : String
  st : DetailState
deriving DecidableEq, Repr

/-- Resolution of an in-flight `loadTask` fetch on an instance: the
response body is applied to the instance's refs. `loadTask` consults
only `data.status` before writing — the id the request was issued for
(`requestedId`) is not compared against anything at application time. -/
def applyFetchResult (inst : DetailInstance) (_requestedId : String)
    (r : DetailResponse) : DetailInstance :=
  { inst with st := loadTaskApply inst.st r }

/-- One tick of the `refreshInterval` timer installed by `onMounted`:
`if (task.value?.status === 'running') refreshTask()`. Returns the id a
detail re-fetch is issued for (the route's `taskId`), or `none` when
the tick issues no request. -/
def pollTick (inst : DetailInstance) : Option String :=
  match inst.st.task with
  | some t => if t.status == "running" then some inst.routeTaskId else none
  | none => none

/-- The detail-view world: the component instances the router has
created so far (indexed by creation order) and which of them, if any,
is currently mounted and rendered. -/
structure DetailSystem where
  instances : List DetailInstance
  mountedIdx : Option Nat
deriving DecidableEq, Repr

/-- A late fetch response for instance `idx` arrives: it is applied to
the refs of the instance that issued it (the `loadTask` closure wrote
to its own component's refs), whether or not that instance is still
mounted. -/
def applyLateResponse (sys : DetailSystem) (idx : Nat) (rid : String)
    (r : DetailResponse) : DetailSystem :=
  { sys with
    instances :=
      sys.instances.mapIdx (fun j inst =>
        if j = idx then applyFetchResult inst rid r else inst) }

/-- What the task-detail page currently displays: the state of the
mounted instance, if one is mounted. -/
def displayedDetail (sys : DetailSystem) : Option DetailState :=
  sys.mountedIdx.bind (fun i => (sys.instances[i]?).map DetailInstance.st)

/-- `TaskStats` record of the `TasksView` in `MainLayout.vue`. -/
structure TaskStats where
  total : Int
  pending : Int
  running : Int
  completed : Int
  failed : Int
deriving DecidableEq, Repr

/-- Local state of the `TasksView`: the `tasks`, `stats`,
`filterStatus` and `searchQuery` refs. -/
structure TasksViewState where
  tasks : List Task
  stats : Option TaskStats
  filterStatus : String
  searchQuery : String
deriving DecidableEq, Repr

/-- Decoded body of `fetch('/api/tasks?status=…&limit=100')`:
transport/JSON failure, or an envelope with a `status` field and a
`tasks` array. -/
inductive TasksFetchOutcome where
  | failure : TasksFetchOutcome
  | envelope (status : String) (tasks : List Task) : TasksFetchOutcome
deriving DecidableEq, Repr

/-- The state update performed by `loadTasks` of the `TasksView`: the
snapshot is replaced only when `data.status === 'success'`; a thrown
error or a non-`success` envelope changes nothing (the `catch` only
logs). -/
def loadTasksApply (st : TasksViewState) (o : TasksFetchOutcome) :
    TasksViewState :=
  match o with
  | .failure => st
  | .envelope status ts =>
      if status == "success" then { st with tasks := ts } else st

/-- `true` when the character list `q` occurs contiguously inside `l`. -/
def charListStartsWith : List Char → List Char → Bool
  | _, [] => true
  | [], _ :: _ => false
  | a :: as, b :: bs => a == b && charListStartsWith as bs

/-- Contiguous-substring test on character lists. -/
def charListIncludes : List Char → List Char → Bool
  | [], q => q.isEmpty
  | a :: as, q => charListStartsWith (a :: as) q || charListIncludes as q

/-- JavaScript `s.includes(q)`. -/
def strIncludes (s q : String) : Bool := charListIncludes s.data q.data

/-- The `filteredTasks` computed of the `TasksView`: when the status
filter is non-empty (truthy), keep only tasks whose `status` equals it;
when the search query is non-empty, additionally keep only tasks whose
lower-cased `description`, `task_type` or `task_id` contains the
lower-cased query (an absent `description` contributes `false`). -/
def filteredTasks (st : TasksViewState) : List Task :=
  let filtered := st.tasks
  let filtered :=
    if !st.filterStatus.isEmpty then
      filtered.filter (fun t => t.status == st.filterStatus)
    else filtered
  let filtered :=
    if !st.searchQuery.isEmpty then
      let query := st.searchQuery.toLower
      filtered.filter (fun t =>
        (match t.description with
         | some d => strIncludes d.toLower query
         | none => false)
        || strIncludes t.task_type.toLower query
        || strIncludes t.task_id.toLower query)
    else filtered
  filtered

/-! ## Helper definitions and lemmas for the buffer invariant -/

/-- A staging operation: `(true, n)` is a call `enableTool(n)`,
`(false, n)` a call `disableTool(n)`. -/
def stageOp (st : ToolMgmtState) (op : Bool × String) : ToolMgmtState :=
  if op.1 then enableTool st op.2 else disableTool st op.2

/-- Run a sequence of `enableTool`/`disableTool` calls. -/
def runStages (st : ToolMgmtState) (ops : List (Bool × String)) : ToolMgmtState :=
  ops.foldl stageOp st

/-- The tag an operation with intent `b` pushes for name `n`. -/
def tagOf (b : Bool) (n : String) : String := if b then tagE n else tagD n

/-- `s` is a buffer entry concerning tool name `n`. -/
def isFor (n s : String) : Bool := s == tagE n || s == tagD n

/-- All buffer entries concerning tool name `n`. -/
def entriesFor (n : String) (buf : List String) : List String :=
  buf.filter (isFor n)

/-- The intent of the most recent staging call for name `n` in `ops`. -/
def lastIntent (n : String) (ops : List (Bool × String)) : Option Bool :=
  ((ops.filter (fun op => op.2 == n)).getLast?).map Prod.fst

/-- The buffer entries name `n` is expected to own, given the most
recent staging intent for it. -/
def expectedEntries (n : String) : Option Bool → List String
  | none => []
  | some b => [tagOf b n]

theorem str_data_append (a b : String) : (a ++ b).data = a.data ++ b.data := by
  cases a; cases b; rfl

theorem tagE_inj {m n : String} (h : tagE m = tagE n) : m = n := by
  have h2 : ("enable:" ++ m).data = ("enable:" ++ n).data := congrArg String.data h
  rw [str_data_append, str_data_append] at h2
  exact String.ext (List.append_cancel_left h2)

theorem tagD_inj {m n : String} (h : tagD m = tagD n) : m = n := by
  have h2 : ("disable:" ++ m).data = ("disable:" ++ n).data := congrArg String.data h
  rw [str_data_append, str_data_append] at h2
  exact String.ext (List.append_cancel_left h2)

theorem tagE_ne_tagD (m n : String) : tagE m ≠ tagD n := by
  intro h
  have h2 : ("enable:" ++ m).data = ("disable:" ++ n).data := congrArg String.data h
  rw [str_data_append, str_data_append] at h2
  have he : "enable:".data = 'e' :: ['n', 'a', 'b', 'l', 'e', ':'] := rfl
  have hd : "disable:".data = 'd' :: ['i', 's', 'a', 'b', 'l', 'e', ':'] := rfl
  rw [he, hd, List.cons_append, List.cons_append] at h2
  have h3 : 'e' = 'd' := (List.cons.injEq _ _ _ _).mp h2 |>.1
  exact absurd h3 (by decide)

theorem tagOf_not_inj {b : Bool} {m n : String} : tagOf b m ≠ tagOf (!b) n := by
  cases b with
  | true => exact fun h => tagE_ne_tagD m n h
  | false => exact fun h => tagE_ne_tagD n m h.symm

theorem tagOf_inj {b : Bool} {m n : String} (h : tagOf b m = tagOf b n) : m = n := by
  cases b with
  | true => exact tagE_inj h
  | false => exact tagD_inj h

theorem isFor_tagOf (n : String) (b : Bool) : isFor n (tagOf b n) = true := by
  cases b <;> simp [isFor, tagOf]

theorem isFor_tagOf_iff (m n : String) (b : Bool) :
    isFor n (tagOf b m) = true ↔ m = n := by
  constructor
  · intro h
    rcases Bool.or_eq_true_iff.mp h with h1 | h1
    · have := eq_of_beq h1
      cases b with
      | true => exact tagE_inj this
      | false => exact absurd this.symm (tagE_ne_tagD n m)
    · have := eq_of_beq h1
      cases b with
      | true => exact absurd this (tagE_ne_tagD m n)
      | false => exact tagD_inj this
  · rintro rfl; exact isFor_tagOf _ b

theorem contains_iff_mem {l : List String} {a : String} :
    l.contains a = true ↔ a ∈ l := List.elem_iff

theorem entriesFor_append (n : String) (l1 l2 : List String) :
    entriesFor n (l1 ++ l2) = entriesFor n l1 ++ entriesFor n l2 :=
  List.filter_append _ _

theorem entriesFor_singleton_pos (n s : String) (h : isFor n s = true) :
    entriesFor n [s] = [s] := by
  unfold entriesFor
  rw [List.filter_cons, if_pos h]
  rfl

theorem contains_eq_false_of_not_mem {l : List String} {a : String}
    (h : a ∉ l) : l.contains a = false := by
  rcases Bool.eq_false_or_eq_true (l.contains a) with hc | hc
  · exact absurd (contains_iff_mem.mp hc) h
  · exact hc

theorem filter_erase_of_pos {α : Type} [BEq α] [LawfulBEq α] (p : α → Bool)
    (a : α) (hp : p a = true) :
    ∀ l : List α, (l.erase a).filter p = (l.filter p).erase a := by
  intro l
  induction l with
  | nil => rfl
  | cons b t ih =>
    by_cases h : b = a
    · subst h
      rw [List.erase_cons_head, List.filter_cons, if_pos hp, List.erase_cons_head]
    · have hba : ¬(b == a) = true := by simp [h]
      rw [List.erase_cons_tail hba, List.filter_cons, List.filter_cons]
      by_cases hpb : p b = true
      · rw [if_pos hpb, if_pos hpb, List.erase_cons_tail hba, ih]
      · rw [if_neg hpb, if_neg hpb, ih]

theorem filter_erase_of_neg {α : Type} [BEq α] [LawfulBEq α] (p : α → Bool)
    (a : α) (hp : p a = false) :
    ∀ l : List α, (l.erase a).filter p = l.filter p := by
  intro l
  induction l with
  | nil => rfl
  | cons b t ih =>
    by_cases h : b = a
    · subst h
      rw [List.erase_cons_head, List.filter_cons, if_neg (by simp [hp])]
    · have hba : ¬(b == a) = true := by simp [h]
      rw [List.erase_cons_tail hba, List.filter_cons, List.filter_cons, ih]

/-- Effect of one staging call on the buffer, factored out of
`enableTool`/`disableTool`. -/
theorem pendingChanges_stageOp (st : ToolMgmtState) (b : Bool) (m : String) :
    (stageOp st (b, m)).pendingChanges =
      (if st.pendingChanges.contains (tagOf b m) then st.pendingChanges
       else st.pendingChanges ++ [tagOf b m]).erase (tagOf (!b) m) := by
  cases b <;> rfl

/-- How one staging call transforms the per-name buffer entries,
assuming name `m` currently owns at most one entry. -/
theorem entriesFor_stage_buf (pc : List String) (b : Bool) (m n : String)
    (h : entriesFor m pc = [] ∨ entriesFor m pc = [tagOf b m] ∨
         entriesFor m pc = [tagOf (!b) m]) :
    entriesFor n
        ((if pc.contains (tagOf b m) then pc else pc ++ [tagOf b m]).erase
          (tagOf (!b) m)) =
      if m = n then [tagOf b n] else entriesFor n pc := by
  by_cases hmn : m = n
  · subst hmn
    rw [if_pos rfl]
    rcases h with h | h | h
    · have hE : tagOf b m ∉ pc := by
        intro hmem
        have : tagOf b m ∈ entriesFor m pc :=
          List.mem_filter.mpr ⟨hmem, isFor_tagOf m b⟩
        rw [h] at this
        exact List.not_mem_nil _ this
      have hD : tagOf (!b) m ∉ pc := by
        intro hmem
        have : tagOf (!b) m ∈ entriesFor m pc :=
          List.mem_filter.mpr ⟨hmem, isFor_tagOf m (!b)⟩
        rw [h] at this
        exact List.not_mem_nil _ this
      rw [if_neg (by rw [contains_eq_false_of_not_mem hE]; exact Bool.false_ne_true)]
      have hD2 : tagOf (!b) m ∉ pc ++ [tagOf b m] := by
        intro hmem
        rcases List.mem_append.mp hmem with h2 | h2
        · exact hD h2
        · exact tagOf_not_inj (List.mem_singleton.mp h2).symm
      rw [List.erase_of_not_mem hD2, entriesFor_append, h, List.nil_append,
        entriesFor_singleton_pos _ _ (isFor_tagOf m b)]
    · have hE : tagOf b m ∈ pc := by
        have : tagOf b m ∈ entriesFor m pc := by rw [h]; exact List.mem_singleton.mpr rfl
        exact (List.mem_filter.mp this).1
      have hD : tagOf (!b) m ∉ pc := by
        intro hmem
        have : tagOf (!b) m ∈ entriesFor m pc :=
          List.mem_filter.mpr ⟨hmem, isFor_tagOf m (!b)⟩
        rw [h] at this
        exact tagOf_not_inj (List.mem_singleton.mp this).symm
      rw [if_pos (contains_iff_mem.mpr hE), List.erase_of_not_mem hD, h]
    · have hE : tagOf b m ∉ pc := by
        intro hmem
        have : tagOf b m ∈ entriesFor m pc :=
          List.mem_filter.mpr ⟨hmem, isFor_tagOf m b⟩
        rw [h] at this
        exact tagOf_not_inj (List.mem_singleton.mp this)
      rw [if_neg (by rw [contains_eq_false_of_not_mem hE]; exact Bool.false_ne_true)]
      unfold entriesFor
      rw [filter_erase_of_pos _ _ (isFor_tagOf m (!b)), List.filter_append]
      have : entriesFor m pc = [tagOf (!b) m] := h
      unfold entriesFor at this
      rw [this, List.filter_cons, if_pos (isFor_tagOf m b)]
      show ([tagOf (!b) m] ++ [tagOf b m]).erase (tagOf (!b) m) = _
      rw [List.singleton_append, List.erase_cons_head]
  · rw [if_neg hmn]
    have hD : isFor n (tagOf (!b) m) = false := by
      rcases Bool.eq_false_or_eq_true (isFor n (tagOf (!b) m)) with hc | hc
      · exact absurd ((isFor_tagOf_iff m n (!b)).mp hc) hmn
      · exact hc
    have hE : isFor n (tagOf b m) = false := by
      rcases Bool.eq_false_or_eq_true (isFor n (tagOf b m)) with hc | hc
      · exact absurd ((isFor_tagOf_iff m n b).mp hc) hmn
      · exact hc
    unfold entriesFor
    rw [filter_erase_of_neg _ _ hD]
    by_cases hc : pc.contains (tagOf b m) = true
    · rw [if_pos hc]
    · rw [if_neg hc, List.filter_append, List.filter_cons, if_neg (by simp [hE])]
      rw [List.filter_nil, List.append_nil]

theorem runStages_append (st : ToolMgmtState) (ops : List (Bool × String))
    (op : Bool × String) :
    runStages st (ops ++ [op]) = stageOp (runStages st ops) op := by
  unfold runStages
  rw [List.foldl_append]
  rfl

theorem lastIntent_append (n : String) (ops : List (Bool × String))
    (b : Bool) (m : String) :
    lastIntent n (ops ++ [(b, m)]) =
      if m = n then some b else lastIntent n ops := by
  unfold lastIntent
  rw [List.filter_append]
  by_cases h : m = n
  · subst h
    rw [if_pos rfl]
    have : List.filter (fun op => op.2 == m) [(b, m)] = [(b, m)] := by
      simp [List.filter_cons]
    rw [this, List.getLast?_concat]
    rfl
  · rw [if_neg h]
    have : List.filter (fun op => op.2 == n) [(b, m)] = [] := by
      simp [List.filter_cons, h]
    rw [this, List.append_nil]

/-- Per-name characterization of the buffer after any sequence of
staging calls starting from an empty buffer. -/
theorem entriesFor_runStages (tools0 : List ToolStatus)
    (ops : List (Bool × String)) :
    ∀ n, entriesFor n (runStages ⟨tools0, []⟩ ops).pendingChanges =
      expectedEntries n (lastIntent n ops) := by
  induction ops using List.reverseRecOn with
  | nil => intro n; rfl
  | append_singleton ops op ih =>
    obtain ⟨b, m⟩ := op
    intro n
    rw [runStages_append, pendingChanges_stageOp, lastIntent_append]
    have hm := ih m
    have h : entriesFor m (runStages ⟨tools0, []⟩ ops).pendingChanges = [] ∨
        entriesFor m (runStages ⟨tools0, []⟩ ops).pendingChanges = [tagOf b m] ∨
        entriesFor m (runStages ⟨tools0, []⟩ ops).pendingChanges = [tagOf (!b) m] := by
      rw [hm]
      cases hlast : lastIntent m ops with
      | none => exact Or.inl rfl
      | some c =>
        cases b <;> cases c
        · exact Or.inr (Or.inl rfl)
        · exact Or.inr (Or.inr rfl)
        · exact Or.inr (Or.inr rfl)
        · exact Or.inr (Or.inl rfl)
    rw [entriesFor_stage_buf _ b m n h]
    by_cases hmn : m = n
    · rw [if_pos hmn, if_pos hmn]
      rfl
    · rw [if_neg hmn, if_neg hmn]
      exact ih n

/-! ## Concrete fixtures used by scenario theorems and witnesses -/

/-- A task snapshot for id `"A"` in terminal state. -/
def taskA : Task :=
  { task_id := "A", session_id := "s", tool_name := "", task_type := "agent",
    status := "completed", priority := 0, description := none,
    parameters := none, result := none, error_message := none,
    created_at := "", updated_at := "", completed_at := some "" }

/-- A successful detail envelope carrying `taskA`. -/
def respA : DetailResponse := .envelope "success" (some taskA)

/-- A freshly mounted detail instance whose route points at task `"B"`. -/
def instB : DetailInstance :=
  { routeTaskId := "B", st := { task := none, steps := [] } }

/-- The torn-down detail instance that had been showing task `"A"`. -/
def instA : DetailInstance :=
  { routeTaskId := "A", st := { task := none, steps := [] } }

/-- A sample decoded step. -/
def sampleStep : TaskStep :=
  { step_id := "s1", step_number := 1, step_type := "tool_call",
    description := none, tool_calls := [], llm_input := none,
    llm_output := none, intermediate_result := none, started_at := none,
    completed_at := none, duration_ms := none, status := "completed" }

/-- A successful task snapshot whose `result` carries no `steps` field. -/
def taskNoSteps : Task :=
  { taskA with task_id := "T", result := some { steps := none, execution_summary := none } }

/-- Tool fixtures for the end-to-end flush scenario. -/
def searchTool : ToolStatus :=
  { name := "search", description := "web search", enabled := false,
    active := false, category := "network", version := none }

def fetchTool : ToolStatus :=
  { name := "fetch", description := "http fetch", enabled := true,
    active := true, category := "network", version := none }

/-- Scenario start: freshly loaded tool list, empty buffer. -/
def flushScenarioStart : ToolMgmtState :=
  { tools := [searchTool, fetchTool], pendingChanges := [] }

/-- After staging `enable:"search"` then `disable:"fetch"`. -/
def flushScenarioStaged : ToolMgmtState :=
  disableTool (enableTool flushScenarioStart "search") "fetch"

/-- The authoritative snapshot the server returns after the flush. -/
def reloadedTools : List ToolStatus :=
  [{ searchTool with enabled := true, active := true },
   { fetchTool with enabled := false, active := false }]

/-! ## Claim theorems -/

/-- C1: for every sequence of stage operations (`enableTool`/`disableTool`
calls) starting from the view's empty buffer, the pending-change buffer
ends with at most one entry per tool name, and that entry is the tag of
the most recent call for that name (`expectedEntries`/`lastIntent`); in
particular staging enable(x) while disable(x) is queued removes the
disable entry and installs the enable entry, and symmetrically. -/
theorem buffer_one_entry_per_name_most_recent (tools0 : List ToolStatus)
    (ops : List (Bool × String)) (n : String) :
    (entriesFor n
        (runStages { tools := tools0, pendingChanges := [] } ops).pendingChanges).length ≤ 1 ∧
    entriesFor n
        (runStages { tools := tools0, pendingChanges := [] } ops).pendingChanges =
      expectedEntries n (lastIntent n ops) := by
  refine ⟨?_, entriesFor_runStages tools0 ops n⟩
  rw [entriesFor_runStages tools0 ops n]
  cases lastIntent n ops with
  | none => exact Nat.zero_le 1
  | some b => exact Nat.le_refl 1

/-- C2 counterexample: `loadTask` has no active-target check — a resolved
fetch result is applied to the issuing component's display state even
when the id it was requested for differs from the instance's current
route target (here: a response for task "A" applied while the instance's
route points at "B" changes the displayed task to "A"). -/
theorem no_active_target_check_on_apply :
    applyFetchResult instB "A" respA ≠ instB ∧
    (applyFetchResult instB "A" respA).st.task = some taskA ∧
    instB.routeTaskId = "B" :=
  ⟨by decide, rfl, rfl⟩

/-- C2 amended: the late-arriving response for task A is applied only to
the refs of the (torn-down) instance that issued the fetch, so the
freshly mounted instance for task B keeps its displayed state — the
protection comes from per-instance state ownership, not from an
active-target check (none exists). -/
theorem late_response_leaves_mounted_instance (sys : DetailSystem)
    (idx j : Nat) (rid : String) (r : DetailResponse)
    (hm : sys.mountedIdx = some j) (hne : j ≠ idx) :
    displayedDetail (applyLateResponse sys idx rid r) = displayedDetail sys := by
  unfold displayedDetail applyLateResponse
  rw [hm]
  simp only [Option.some_bind]
  rw [List.getElem?_mapIdx]
  cases h : sys.instances[j]? with
  | none => rfl
  | some inst => simp [hne]

/-- C2 witness for `late_response_leaves_mounted_instance`: instance 0
(for task "A") is torn down, instance 1 (for task "B") is mounted; the
late "A" response leaves the displayed state unchanged. -/
theorem late_response_leaves_mounted_instance_witness :
    displayedDetail (applyLateResponse
        { instances := [instA, instB], mountedIdx := some 1 } 0 "A" respA) =
      displayedDetail { instances := [instA, instB], mountedIdx := some 1 } :=
  late_response_leaves_mounted_instance _ 0 1 "A" respA rfl (by decide)

/-- C3: a poll tick of the detail view issues a re-fetch iff the
last-known task status is `"running"`; in particular once the displayed
task is `"completed"` a tick issues no request (and, the tick reading
but never writing the snapshot, neither does any later tick until a
fetch response changes the status). -/
theorem pollTick_running_only (inst : DetailInstance) :
    ((pollTick inst).isSome = true ↔
        ∃ t, inst.st.task = some t ∧ t.status = "running") ∧
    (∀ t, inst.st.task = some t → t.status = "completed" →
        pollTick inst = none) := by
  constructor
  · unfold pollTick
    cases h : inst.st.task with
    | none => simp
    | some t =>
      by_cases hr : t.status = "running"
      · simp [hr]
      · have hb : (t.status == "running") = false := by simp [hr]
        simp [hb, hr]
  · intro t ht hc
    unfold pollTick
    rw [ht]
    have hb : (t.status == "running") = false := by simp [hc]
    simp [hb]

/-- C3 witness for `pollTick_running_only`: a tick over a completed task
issues no request. -/
theorem pollTick_running_only_witness :
    pollTick { routeTaskId := "A", st := { task := some taskA, steps := [] } } = none :=
  (pollTick_running_only _).2 taskA rfl rfl

/-- C4: a failed flush — transport failure or non-2xx response — leaves
the whole client state (pending-change buffer and displayed tool list)
exactly as it was, and a subsequent successful reload displays the
server's snapshot (no partial application is assumed client-side). -/
theorem flush_failure_preserves_state (st : ToolMgmtState)
    (body : ErrorData) (ro : ToolsFetchOutcome) (server : List ToolStatus) :
    (saveAndReload st .failure ro).1 = st ∧
    (saveAndReload st (.httpError body) ro).1 = st ∧
    (loadTools (saveAndReload st (.httpError body) ro).1
        (.response true (some server))).tools = server := by
  refine ⟨?_, ?_, ?_⟩ <;> unfold saveAndReload
  · by_cases h : st.pendingChanges.isEmpty <;> simp [h]
  · by_cases h : st.pendingChanges.isEmpty <;> simp [h]
  · by_cases h : st.pendingChanges.isEmpty <;> simp [h, loadTools]

/-- C5: staging `enable:"search"` then `disable:"fetch"` then flushing
sends exactly one save-and-reload request, whose body is
`{changes: ["enable:search", "disable:fetch"]}`, followed only by the
post-flush tool re-fetch; on success the buffer is cleared and the
displayed list becomes the re-fetched server snapshot. -/
theorem flush_scenario_sends_batch :
    flushScenarioStaged.pendingChanges = ["enable:search", "disable:fetch"] ∧
    saveAndReload flushScenarioStaged .success (.response true (some reloadedTools)) =
      ({ tools := reloadedTools, pendingChanges := [] },
       [.flush ["enable:search", "disable:fetch"], .getTools]) := by
  constructor <;> decide

/-- C6 counterexample: `loadTools` does not unconditionally discard the
buffer and replace the list — on a transport failure (thrown fetch) the
`catch` path mutates nothing, so a non-empty buffer survives, and on a
non-2xx response the displayed list is retained rather than replaced. -/
theorem loadTools_not_unconditional :
    loadTools { tools := [searchTool], pendingChanges := ["enable:search"] } .failure =
      { tools := [searchTool], pendingChanges := ["enable:search"] } ∧
    (["enable:search"] : List String) ≠ [] ∧
    (loadTools { tools := [searchTool], pendingChanges := [] }
        (.response false (some reloadedTools))).tools = [searchTool] := by
  refine ⟨rfl, by decide, rfl⟩

/-- C6 amended: `loadTools` per outcome — a 2xx response replaces the
list with the fetched snapshot (`[]` when the body has no `tools`
field) and clears the buffer; a non-2xx response keeps the list but
still clears the buffer; a thrown fetch (transport failure) changes
nothing, buffer included. -/
theorem loadTools_per_outcome (st : ToolMgmtState)
    (tools? : Option (List ToolStatus)) :
    loadTools st .failure = st ∧
    loadTools st (.response true tools?) =
      { tools := tools?.getD [], pendingChanges := [] } ∧
    loadTools st (.response false tools?) = { st with pendingChanges := [] } :=
  ⟨rfl, rfl, rfl⟩

/-- C7: a failed task-list fetch — transport failure, or any response
whose envelope is not `status:"success"` (the shape §6 gives every
non-2xx or error response) — leaves the previously displayed snapshot
untouched. -/
theorem loadTasks_failure_keeps_snapshot (st : TasksViewState) (s : String)
    (ts : List Task) (h : s ≠ "success") :
    loadTasksApply st .failure = st ∧ loadTasksApply st (.envelope s ts) = st := by
  refine ⟨rfl, ?_⟩
  unfold loadTasksApply
  have hb : (s == "success") = false := by simp [h]
  simp [hb]

/-- C7 witness for `loadTasks_failure_keeps_snapshot`: an
`status:"error"` envelope leaves a one-task snapshot displayed. -/
theorem loadTasks_failure_keeps_snapshot_witness :
    loadTasksApply
        { tasks := [taskA], stats := none, filterStatus := "", searchQuery := "" }
        (.envelope "error" []) =
      { tasks := [taskA], stats := none, filterStatus := "", searchQuery := "" } :=
  (loadTasks_failure_keeps_snapshot _ "error" [] (by decide)).2

/-- C8 counterexample: a successful detail fetch whose task carries no
`result.steps` does not reset the displayed steps to the empty
sequence — the previously displayed steps are retained. -/
theorem loadTask_absent_steps_retained :
    (loadTaskApply { task := none, steps := [sampleStep] }
        (.envelope "success" (some taskNoSteps))).steps = [sampleStep] ∧
    ([sampleStep] : List TaskStep) ≠ [] :=
  ⟨rfl, by decide⟩

/-- C8 amended: on every successful detail fetch the displayed task is
replaced by the returned one and the displayed steps equal the decoded
`result.steps` when that field is present; when it is absent the
previously displayed steps are retained (so they are empty only if
nothing was displayed before). -/
theorem loadTask_steps_rule (st : DetailState) (t? : Option Task) :
    loadTaskApply st (.envelope "success" t?) =
      { task := t?,
        steps := (t?.bind (fun t => t.result.bind (fun r => r.steps))).getD st.steps } := by
  unfold loadTaskApply
  simp only [beq_self_eq_true, if_true]
  cases hb : t?.bind (fun t => t.result.bind (fun r => r.steps)) with
  | none => simp [hb]
  | some ss => simp [hb]

/-- C9 counterexample: the flush error branch of
`src/dashboard/src/views/ToolManagementView.vue` interpolates only the
`error` key — a structured body carrying the message under `detail`
displays `undefined` instead of the message. -/
theorem vue_flush_alert_ignores_detail :
    saveAndReloadAlertVue (.obj (some "config reload failed") none) =
      "保存失败: undefined" ∧
    saveAndReloadAlertVue (.obj (some "config reload failed") none) ≠
      "保存失败: config reload failed" :=
  ⟨rfl, by decide⟩

/-- C9 amended: the shared helper `getErrorMessage` (used by the flush
error branch of the newer tool-management view) checks both keys —
`detail` first, then `error`, then a default — while the older view's
flush error branch shows only the `error` key. -/
theorem getErrorMessage_checks_detail_then_error (d e : Option String) :
    (truthyStr d = true → getErrorMessage (.obj d e) = d.getD "") ∧
    (truthyStr d = false → truthyStr e = true →
        getErrorMessage (.obj d e) = e.getD "") ∧
    (truthyStr d = false → truthyStr e = false →
        getErrorMessage (.obj d e) = "未知错误") ∧
    (∀ s, getErrorMessage (.str s) = s) ∧
    (∀ b, saveAndReloadAlertNew b = "保存失败: " ++ getErrorMessage b) := by
  refine ⟨?_, ?_, ?_, fun s => rfl, fun b => rfl⟩ <;>
    · intros
      unfold getErrorMessage
      simp [*]

/-- C9 witness for `getErrorMessage_checks_detail_then_error`: a
`detail`-only body yields the detail, an `error`-only body the error. -/
theorem getErrorMessage_checks_witness :
    getErrorMessage (.obj (some "boom") none) = "boom" ∧
    getErrorMessage (.obj none (some "bad")) = "bad" :=
  ⟨(getErrorMessage_checks_detail_then_error (some "boom") none).1 (by decide),
   (getErrorMessage_checks_detail_then_error none (some "bad")).2.1 (by decide) (by decide)⟩

/-- C10: every task in the rendered (filtered) list satisfies the
selected status filter — with a non-empty filter the client re-applies
the status predicate locally after the fetch, so a task with a
different status is never displayed even if the backend returned it. -/
theorem filteredTasks_respect_status_filter (st : TasksViewState) (t : Task)
    (hmem : t ∈ filteredTasks st) (hf : st.filterStatus ≠ "") :
    t.status = st.filterStatus := by
  have hfe : st.filterStatus.isEmpty = false := by
    rcases Bool.eq_false_or_eq_true st.filterStatus.isEmpty with hc | hc
    · exact absurd ((String.isEmpty_iff _).mp hc) hf
    · exact hc
  unfold filteredTasks at hmem
  simp only [hfe, Bool.not_false, if_true] at hmem
  have hstat : t ∈ List.filter (fun t => t.status == st.filterStatus) st.tasks := by
    by_cases hq : st.searchQuery.isEmpty
    · rw [if_neg (by simp [hq])] at hmem
      exact hmem
    · rw [if_pos (by simp [hq])] at hmem
      exact (List.mem_filter.mp hmem).1
  exact eq_of_beq (List.mem_filter.mp hstat).2

/-- C10 witness for `filteredTasks_respect_status_filter`: with filter
`"completed"`, the one rendered task indeed has that status. -/
theorem filteredTasks_respect_status_filter_witness :
    taskA.status =
      ({ tasks := [taskA], stats := none, filterStatus := "completed",
         searchQuery := "" } : TasksViewState).filterStatus :=
  filteredTasks_respect_status_filter _ taskA (by decide) (by decide)

end Automata
